import Mathlib

/-!
# Verification of the product-upload core

A shallow embedding, in Lean 4, of the token lifecycle and the batch upload
orchestrator of this repository:

* `WeChatShopAPIClient._refresh_access_token`, `get_access_token` and
  `_record_operation` / the operation-history appends
  (src/api/wechat_shop_api.py);
* `ProductUploader._validate_product_data`, `upload_single_product`,
  `upload_products` and `upload_products_async`
  (src/core/product_uploader.py).

Python's dynamically typed values are embedded as follows: a dict key that may
be absent becomes an `Option`; Python truthiness of the embedded values is
spelled out where the source tests it (`""`, `[]`, `{}`, `0`, `None` are
falsy).  Wall-clock time is a virtual clock measured in seconds: `time.sleep`
advances it, everything else is instantaneous.  Network calls are oracles
passed in as functions.  Exceptions escaping a function are `Except.error`;
values returned normally are `Except.ok`.
-/

namespace ProductUpload

/-! ## Token lifecycle (`WeChatShopAPIClient`)

State relevant to `_refresh_access_token`: the cached `access_token` string
(`""` when unset, which is falsy) and `token_expire_time` (a timestamp,
initially `0`).  Timestamps are integers (seconds). -/

structure TokenState where
  access_token : String
  token_expire_time : Int
  deriving Repr, DecidableEq

/-- Outcome of the outbound auth call
`self.session.get(url, params).json()` in `_refresh_access_token`:
either the parsed body contains `"access_token"` (with `expires_in` read via
`result.get("expires_in", 7200)`), or it does not (error body), or the
request raised. -/
inductive AuthResult where
  | ok (token : String) (expires_in : Option Int)
  | errBody (errmsg : String)
  | raised (msg : String)
  deriving Repr, DecidableEq

/-- Result of one call to `_refresh_access_token`:
the new state, the returned token (`none` embeds Python `None`), and whether
the Authenticator (the remote token endpoint) was actually called. -/
structure RefreshOutcome where
  state : TokenState
  returned : Option String
  authCalled : Bool
  deriving Repr, DecidableEq

/-- `WeChatShopAPIClient._refresh_access_token`
(src/api/wechat_shop_api.py lines 389-431).

`now` is the value of `time.time()` at the cache check (and at the expiry
computation: the model takes the two reads as equal, no claim depends on the
microseconds between them); `configOk` is the result of `self._check_config()`;
`auth` is the oracle for the outbound token request. -/
def refresh_access_token (st : TokenState) (now : Int) (configOk : Bool)
    (auth : AuthResult) : RefreshOutcome :=
  -- `if self.access_token and time.time() < self.token_expire_time:`
  if st.access_token ≠ "" ∧ now < st.token_expire_time then
    { state := st, returned := some st.access_token, authCalled := false }
  else if ¬ configOk then
    { state := st, returned := none, authCalled := false }
  else
    match auth with
    | .ok tok expires_in =>
        -- `self.token_expire_time = time.time() + result.get("expires_in", 7200) - 1200`
        { state := { access_token := tok,
                     token_expire_time := now + expires_in.getD 7200 - 1200 },
          returned := some tok, authCalled := true }
    | .errBody _ => { state := st, returned := none, authCalled := true }
    | .raised _ => { state := st, returned := none, authCalled := true }

/-- `WeChatShopAPIClient.get_access_token` just delegates to
`_refresh_access_token` (src/api/wechat_shop_api.py line 452-457). -/
def get_access_token (st : TokenState) (now : Int) (configOk : Bool)
    (auth : AuthResult) : RefreshOutcome :=
  refresh_access_token st now configOk auth

/-! ## Interleaved token acquisition (claim C2)

`_refresh_access_token` has no lock: the cache-validity test (line 395) and
the token write (lines 420-424) are separate steps that other callers can
interleave with.  `raceStep` is the same function as `refresh_access_token`,
with those two steps made individually atomic so that schedules of several
concurrent callers can be examined.  Config is taken as valid and the
Authenticator as deterministic (`tok`, `expires_in`), matching the scenario of
the claim. -/

inductive CallerPC where
  /-- about to run the cache-validity test of line 395 -/
  | check
  /-- about to issue the Authenticator request and store the result (403-425) -/
  | refresh
  /-- returned from `_refresh_access_token` with this value -/
  | done (returned : Option String)
  deriving Repr, DecidableEq

structure RaceState where
  shared : TokenState
  pcs : List CallerPC
  /-- number of Authenticator (remote token endpoint) calls made so far -/
  authCalls : Nat
  deriving Repr, DecidableEq

/-- One atomic step of caller `i` inside `_refresh_access_token`. -/
def raceStep (now expires_in : Int) (tok : String) (st : RaceState) (i : Nat) :
    RaceState :=
  match st.pcs.get? i with
  | none => st
  | some .check =>
      if st.shared.access_token ≠ "" ∧ now < st.shared.token_expire_time then
        { st with pcs := st.pcs.set i (.done (some st.shared.access_token)) }
      else
        { st with pcs := st.pcs.set i .refresh }
  | some .refresh =>
      { shared := { access_token := tok,
                    token_expire_time := now + expires_in - 1200 },
        pcs := st.pcs.set i (.done (some tok)),
        authCalls := st.authCalls + 1 }
  | some (.done _) => st

/-- Run a schedule: the list names which caller takes the next atomic step. -/
def runSchedule (now expires_in : Int) (tok : String) :
    RaceState → List Nat → RaceState
  | st, [] => st
  | st, i :: rest => runSchedule now expires_in tok (raceStep now expires_in tok st i) rest

/-- `k` callers entering `_refresh_access_token` simultaneously on shared
token state `st0`. -/
def initRace (k : Nat) (st0 : TokenState) : RaceState :=
  { shared := st0, pcs := List.replicate k .check, authCalls := 0 }

/-- Sequential (non-overlapping) invocations of `_refresh_access_token`:
each caller runs the whole function to completion before the next starts.
Returns the final token state, the number of Authenticator calls, and each
caller's returned value in order. -/
def seqAcquire (now : Int) (configOk : Bool) (auth : AuthResult) :
    Nat → TokenState → TokenState × Nat × List (Option String)
  | 0, st => (st, 0, [])
  | k + 1, st =>
      let r := refresh_access_token st now configOk auth
      let rest := seqAcquire now configOk auth k r.state
      (rest.1, (if r.authCalled then 1 else 0) + rest.2.1, r.returned :: rest.2.2)

/-! ## Operation history (claim C8)

The history bound only concerns which records are kept, never their contents,
so the record type is a parameter `α`. -/

/-- `WeChatShopAPIClient._record_operation` (lines 433-450): append the new
record, then `if len(self.operation_history) > 1000: self.operation_history.pop(0)`
(`pop(0)` removes the oldest entry). -/
def record_operation (hist : List α) (r : α) : List α :=
  let h := hist ++ [r]
  if 1000 < h.length then h.drop 1 else h

/-- History effect of one `WeChatShopAPIClient.upload_product` call
(lines 597-630).  When a required field is missing it returns before touching
the history.  Otherwise its inner `_api_request` call records through
`_record_operation` (`apiRecords`: zero records when the token refresh fails,
one on the normal paths, two when a transport exception is retried to
success), and then `upload_product` itself appends its own record directly to
`self.operation_history` (lines 617-623), without any cap.
`add_product` (lines 647-653) and `upload_image` (lines 582-588) end with the
same direct uncapped append. -/
def upload_product_history (hist : List α) (hasRequiredFields : Bool)
    (apiRecords : List α) (directRecord : α) : List α :=
  if ¬ hasRequiredFields then hist
  else (apiRecords.foldl record_operation hist) ++ [directRecord]

/-! ## Product data and validation (`ProductUploader`)

A product dict is embedded as far as `ProductUploader` inspects it; `none`
embeds an absent key.  `cats` entries are category dicts in the source, whose
contents the uploader never reads, so only the ids are kept. -/

/-- The Python value stored under the `price` key.  `float()` always succeeds
on a number; on a string only when the text parses as a float, which the
embedding records in the `parsesAsFloat` flag (no claim depends on which
strings parse). -/
inductive PriceVal where
  | pnum (n : Int)
  | pstr (s : String) (parsesAsFloat : Bool)
  deriving Repr, DecidableEq

/-- Python truthiness of a price value (`0` and `""` are falsy). -/
def PriceVal.truthy : PriceVal → Bool
  | .pnum n => n ≠ 0
  | .pstr s _ => s ≠ ""

/-- Whether `float(value)` succeeds. -/
def PriceVal.floatOk : PriceVal → Bool
  | .pnum _ => true
  | .pstr _ ok => ok

structure Product where
  title : Option String := none
  head_imgs : Option (List String) := none
  price : Option PriceVal := none
  cats : Option (List String) := none
  out_product_id : Option String := none
  deriving Repr, DecidableEq

/-- `field in product_data and product_data[field]` for a string field. -/
def pyTruthyStr : Option String → Bool
  | none => false
  | some s => s ≠ ""

/-- The same for a list-valued field (`[]` is falsy). -/
def pyTruthyList : Option (List α) → Bool
  | none => false
  | some l => ¬ l.isEmpty

def pyTruthyPrice : Option PriceVal → Bool
  | none => false
  | some v => v.truthy

/-- `ProductUploader._validate_product_data` (lines 160-189): each of
`title`, `head_imgs`, `price`, `cats` must be present and truthy; then
`head_imgs` is re-checked to be non-empty; then `float(price)` must succeed
when `price` is present. -/
def validate_product_data (p : Product) : Bool :=
  if ¬ pyTruthyStr p.title then false
  else if ¬ pyTruthyList p.head_imgs then false
  else if ¬ pyTruthyPrice p.price then false
  else if ¬ pyTruthyList p.cats then false
  -- `if len(product_data.get('head_imgs', [])) == 0`
  else if (p.head_imgs.getD []).length = 0 then false
  -- `if 'price' in product_data: try: float(product_data['price'])`
  else
    match p.price with
    | some pr => if ¬ pr.floatOk then false else true
    | none => true

/-! ## Single-item upload (`ProductUploader.upload_single_product`) -/

/-- The response dict returned by `self.api_client.add_product(product)`, as
far as `upload_single_product` inspects it.  `nonempty` is the Python
truthiness of the dict itself (`false` only for `{}`). -/
structure RespDict where
  errcode : Option Int := none
  errmsg : Option String := none
  product_id : Option String := none
  nonempty : Bool := true
  deriving Repr, DecidableEq

inductive Resp where
  | rdict (d : RespDict)
  /-- a non-dict response; `truthy` is its Python truthiness -/
  | rother (truthy : Bool)
  deriving Repr, DecidableEq

/-- Outcome of one `add_product` call: a returned value or a raised
exception. -/
inductive CallOutcome where
  | ret (r : Resp)
  | raise (msg : String)
  deriving Repr, DecidableEq

/-- The second slot of `upload_single_product`'s returned tuple: the API
response as-is, or a literal `{'error': msg}` dict. -/
inductive RetVal where
  | resp (r : Resp)
  | errDict (msg : String)
  deriving Repr, DecidableEq

/-- Exceptions that escape the embedded functions. `nameError` stands for the
`UnboundLocalError` (a `NameError`) raised when the handler reads the
unassigned local `max_retries`; `keyError k` for `product[k]` on a missing
key. -/
inductive PyErr where
  | nameError
  | keyError (k : String)
  deriving Repr, DecidableEq

/-- Environment of one `upload_single_product` invocation chain. -/
structure SingleEnv where
  /-- `self.api_client` is set (not `None`) on entry -/
  apiClientReady : Bool
  /-- `self._initialize_api_client()` completes without raising -/
  initSucceeds : Bool
  /-- oracle: outcome of the call `self.api_client.add_product(product)` made
  by the invocation whose `retry_count` is the argument -/
  tr : Nat → CallOutcome

/-- The `upload` section of `self.config` after `_validate_config` applied
the defaults (`max_retries` 3, `request_interval` 1 s, `batch_size` 10). -/
structure UploadCfg where
  max_retries : Nat := 3
  request_interval : Nat := 1
  batch_size : Nat := 10
  deriving Repr, DecidableEq

/-- The literal `2` of `wait_time = (retry_count + 1) * 2` (lines 227, 242). -/
def retry_delay_base : Nat := 2

/-- Observable outcome of one `upload_single_product` call, with
instrumentation of its effects. -/
structure SingleOutcome where
  /-- normal return `(success, response)`, or an escaping exception -/
  result : Except PyErr (Bool × RetVal)
  /-- number of `add_product` calls made (remote submission attempts) -/
  calls : Nat
  /-- number of `upload_single_product` invocations (1 + retries taken) -/
  invocations : Nat
  /-- the successive `time.sleep(wait_time)` durations before retries -/
  waits : List Nat
  deriving Repr

/-- `non_retryable_codes = [400, 401, 403]` (line 225). -/
def non_retryable_codes : List Int := [400, 401, 403]

/-- `error_code in non_retryable_codes`; a missing `errcode` reads as Python
`None`, and `None not in [400, 401, 403]`. -/
def errcode_non_retryable : Option Int → Bool
  | some v => v ∈ non_retryable_codes
  | none => false

/-- `ProductUploader.upload_single_product` (lines 191-247).  Validation
first; then, inside `try`, the client is (re)initialized if unset and
`max_retries` is read from config; the `add_product` response is classified:
`errcode == 0` succeeds, other codes retry (with
`wait_time = (retry_count + 1) * 2`) unless the code is in
`non_retryable_codes` or the retry budget is exhausted; a falsy or non-dict
response fails without retry; a raised exception retries on budget alone.
When `self.api_client` is unset and re-initialization raises, the `except`
handler reads `max_retries` before line 207 ever assigned it, so the call
raises `UnboundLocalError` (a `NameError`). -/
def upload_single_product (env : SingleEnv) (cfg : UploadCfg) (p : Product)
    (retry_count : Nat) : SingleOutcome :=
  if ¬ validate_product_data p then
    { result := .ok (false, .errDict "商品数据验证失败"), calls := 0,
      invocations := 1, waits := [] }
  else if ¬ env.apiClientReady ∧ ¬ env.initSucceeds then
    { result := .error .nameError, calls := 0, invocations := 1, waits := [] }
  else
    match env.tr retry_count with
    | .raise msg =>
        if h : retry_count < cfg.max_retries then
          let w := (retry_count + 1) * retry_delay_base
          let r := upload_single_product env cfg p (retry_count + 1)
          { result := r.result, calls := r.calls + 1,
            invocations := r.invocations + 1, waits := w :: r.waits }
        else
          { result := .ok (false, .errDict msg), calls := 1, invocations := 1,
            waits := [] }
    | .ret resp =>
        match resp with
        | .rdict d =>
            if d.nonempty then
              if d.errcode = some 0 then
                { result := .ok (true, .resp resp), calls := 1,
                  invocations := 1, waits := [] }
              else if h : retry_count < cfg.max_retries ∧
                  ¬ errcode_non_retryable d.errcode then
                let w := (retry_count + 1) * retry_delay_base
                let r := upload_single_product env cfg p (retry_count + 1)
                { result := r.result, calls := r.calls + 1,
                  invocations := r.invocations + 1, waits := w :: r.waits }
              else
                { result := .ok (false, .resp resp), calls := 1,
                  invocations := 1, waits := [] }
            else
              -- `return False, response or {'error': '未知错误'}` on a falsy dict
              { result := .ok (false, .errDict "未知错误"), calls := 1,
                invocations := 1, waits := [] }
        | .rother truthy =>
            { result := .ok (false,
                if truthy then .resp resp else .errDict "未知错误"),
              calls := 1, invocations := 1, waits := [] }
termination_by cfg.max_retries + 1 - retry_count
decreasing_by
  · omega
  · omega

/-! ## Batch upload (`ProductUploader.upload_products`, sequential) -/

/-- Environment of a batch: one transport oracle per input item (0-based). -/
structure BatchEnv where
  apiClientReady : Bool
  initSucceeds : Bool
  tr : Nat → Nat → CallOutcome

def BatchEnv.itemEnv (env : BatchEnv) (i : Nat) : SingleEnv :=
  ⟨env.apiClientReady, env.initSucceeds, env.tr i⟩

/-- One record of `results['details']` (the `timestamp` field, never
inspected by any code under verification, is not modelled). -/
structure Detail where
  index : Nat
  title : String
  out_product_id : String
  success : Bool
  response : RetVal
  deriving Repr, DecidableEq

/-- The `results` dict of `upload_products` / `upload_products_async`.
`duration` and `success_rate` are `Option` because the empty-input early
return (lines 296-303 / 374-381) builds a dict without those keys.
`duration` is virtual elapsed time: only `time.sleep` consumes time in the
model.  `success_rate` is kept as an exact rational; the source's
`round(..., 2)` is not modelled (no claim depends on the rounded value). -/
structure BatchResults where
  total : Nat
  success : Nat
  failed : Nat
  details : List Detail
  duration : Option Nat
  success_rate : Option ℚ
  deriving Repr, DecidableEq

/-- The batch slices `products[i:i + batch_size]` taken by
`for i in range(0, len(products), batch_size)` (line 321).  `batch_size` is
validated into `[1, 100]` by `_validate_config`; the `n = 0` branch exists
only to make the Lean function total. -/
def chunks (n : Nat) (l : List α) : List (List α) :=
  match n, l with
  | _, [] => []
  | 0, _ => []
  | n + 1, x :: xs => (x :: xs).take (n + 1) :: chunks (n + 1) ((x :: xs).drop (n + 1))
termination_by l.length
decreasing_by
  simp only [List.length_drop, List.length_cons]
  omega

/-- Mutable state of the sequential loop: accumulated details and counters,
total virtual seconds slept, and the 1-based positions of the items after
which the pacing `time.sleep(request_interval)` of line 353 ran
(instrumentation of that observable effect). -/
structure SeqAcc where
  details : List Detail
  success : Nat
  failed : Nat
  slept : Nat
  pacing : List Nat
  deriving Repr, DecidableEq

/-- The inner loop `for j, product in enumerate(batch)` (lines 328-353).
`idx` is the 0-based global position of the head of `batch`
(so `current_index = idx + 1`).  Line 330 reads `product['title']`, raising
`KeyError` when the key is missing; an exception escaping
`upload_single_product` also propagates (there is no `try` here). -/
def runBatch (env : BatchEnv) (cfg : UploadCfg) :
    List Product → Nat → SeqAcc → Except PyErr SeqAcc
  | [], _, acc => .ok acc
  | p :: rest, idx, acc =>
      match p.title with
      | none => .error (.keyError "title")
      | some t =>
          match (upload_single_product (env.itemEnv idx) cfg p 0).result with
          | .error e => .error e
          | .ok (succ, rv) =>
              runBatch env cfg rest (idx + 1)
                { details := acc.details ++
                    [{ index := idx + 1, title := t,
                       out_product_id := p.out_product_id.getD "",
                       success := succ, response := rv }],
                  success := acc.success + (if succ then 1 else 0),
                  failed := acc.failed + (if succ then 0 else 1),
                  slept := acc.slept +
                    (upload_single_product (env.itemEnv idx) cfg p 0).waits.sum +
                    (if rest ≠ [] then cfg.request_interval else 0),
                  pacing := acc.pacing ++ (if rest ≠ [] then [idx + 1] else []) }

/-- The outer loop over batches (line 321): `idx` tracks the global position
of the current batch's first item. -/
def runBatches (env : BatchEnv) (cfg : UploadCfg) :
    List (List Product) → Nat → SeqAcc → Except PyErr SeqAcc
  | [], _, acc => .ok acc
  | b :: bs, idx, acc =>
      match runBatch env cfg b idx acc with
      | .error e => .error e
      | .ok acc' => runBatches env cfg bs (idx + b.length) acc'

/-- Result of `upload_products` together with the pacing instrumentation. -/
structure SeqRun where
  results : BatchResults
  pacing : List Nat
  deriving Repr, DecidableEq

/-- `ProductUploader.upload_products` (lines 289-365).  Empty input returns
the zero summary early (without `duration`/`success_rate`); otherwise the
items are processed batch by batch and the summary is computed at the end. -/
def upload_products (env : BatchEnv) (cfg : UploadCfg) (products : List Product) :
    Except PyErr SeqRun :=
  if products = [] then
    .ok { results := { total := 0, success := 0, failed := 0, details := [],
                       duration := none, success_rate := none },
          pacing := [] }
  else
    match runBatches env cfg (chunks cfg.batch_size products) 0
        ⟨[], 0, 0, 0, []⟩ with
    | .error e => .error e
    | .ok acc =>
        let res : BatchResults :=
          { total := products.length
            success := acc.success
            failed := acc.failed
            details := acc.details
            duration := some acc.slept
            success_rate := some (if 0 < products.length
              then (acc.success * 100 : ℚ) / products.length else 0) }
        .ok { results := res, pacing := acc.pacing }

/-! ## Concurrent batch upload (`ProductUploader.upload_products_async`)

`asyncio.gather` returns the task results in task-creation order, i.e. input
order, whatever the completion order under the semaphore; one task is
therefore embedded as a pure function of its item and 0-based index, and the
gathered list is ordered by input position.  The semaphore bound and the
thread pool affect only timing; wall-clock `duration` is
environment-determined under concurrency and is passed in as `elapsed`. -/

/-- The body of `upload_with_semaphore(product, index)` (lines 396-415) with
`index = i + 1`:  line 398 reads `product['title']` (a `KeyError` escapes the
task), then `upload_single_product` runs in the executor. -/
def asyncTask (env : BatchEnv) (cfg : UploadCfg) (i : Nat) (p : Product) :
    Except PyErr Detail :=
  match p.title with
  | none => .error (.keyError "title")
  | some t =>
      match (upload_single_product (env.itemEnv i) cfg p 0).result with
      | .error e => .error e
      | .ok (succ, rv) =>
          .ok { index := i + 1, title := t,
                out_product_id := p.out_product_id.getD "",
                success := succ, response := rv }

/-- `await asyncio.gather(*tasks)` over the tasks created by
`enumerate(products)` (lines 420-426): results in input order; a task's
exception propagates. -/
def gatherTasks (env : BatchEnv) (cfg : UploadCfg) :
    List Product → Nat → Except PyErr (List Detail)
  | [], _ => .ok []
  | p :: rest, i =>
      match asyncTask env cfg i p with
      | .error e => .error e
      | .ok d =>
          match gatherTasks env cfg rest (i + 1) with
          | .error e => .error e
          | .ok ds => .ok (d :: ds)

/-- `ProductUploader.upload_products_async` (lines 367-446). -/
def upload_products_async (env : BatchEnv) (cfg : UploadCfg)
    (products : List Product) (elapsed : Nat) : Except PyErr BatchResults :=
  if products = [] then
    .ok { total := 0, success := 0, failed := 0, details := [],
          duration := none, success_rate := none }
  else
    match gatherTasks env cfg products 0 with
    | .error e => .error e
    | .ok details =>
        .ok { total := products.length,
              success := (details.filter (·.success)).length,
              failed := (details.filter (fun d => ¬ d.success)).length,
              details := details,
              duration := some elapsed,
              success_rate := some (if 0 < products.length
                then (((details.filter (·.success)).length * 100 : ℚ)) /
                  products.length else 0) }

/-! ## Classification helper and concrete fixtures -/

/-- A transport outcome on which `upload_single_product` retries (given
budget): a raised exception, or a truthy response dict whose `errcode` is
neither `0` nor in `non_retryable_codes`.  This mirrors the retry conditions
of lines 226 and 241. -/
def retryableOutcome : CallOutcome → Bool
  | .raise _ => true
  | .ret (.rdict d) =>
      d.nonempty && decide (d.errcode ≠ some 0) && !(errcode_non_retryable d.errcode)
  | .ret (.rother _) => false

/-- A product that passes `_validate_product_data`. -/
def prodOK : Product :=
  { title := some "T", head_imgs := some ["img"], price := some (.pnum 299),
    cats := some ["100"], out_product_id := some "P1" }

/-- A product dict without the `title` key. -/
def prodNoTitle : Product :=
  { head_imgs := some ["img"], price := some (.pnum 299), cats := some ["100"] }

/-- A successful API response (`errcode = 0`). -/
def respOK : Resp := .rdict { errcode := some 0 }

/-- A remote failure with code 40001. -/
def resp40001 : Resp := .rdict { errcode := some 40001, errmsg := some "invalid credential" }

/-- A remote failure with code 400 (in `non_retryable_codes`). -/
def resp400 : Resp := .rdict { errcode := some 400, errmsg := some "bad request" }

/-- Working client whose every `add_product` call returns `r`. -/
def constEnv (r : Resp) : SingleEnv := ⟨true, true, fun _ => .ret r⟩

/-- Batch environment whose every call succeeds. -/
def allOKEnv : BatchEnv := ⟨true, true, fun _ _ => .ret respOK⟩

/-- Upload config with `batch_size = 2` (within the validated range). -/
def cfgB2 : UploadCfg := { batch_size := 2 }

/-- Client unset (`self.api_client is None`) with `_initialize_api_client`
raising. -/
def brokenClientEnv : SingleEnv := ⟨false, false, fun _ => .ret respOK⟩

end ProductUpload

namespace ProductUpload

/-! ### Theorems about the token lifecycle (claim C3) -/

/-- **C3.** Token acquisition returns the cached credential only when the
current time is strictly before the stored expiry instant; on a successful
refresh the stored expiry is set to `now + expires_in - 1200` (default
`expires_in` 7200); and when the cached token is at or past its stored expiry,
no token is returned without first calling the Authenticator. -/
theorem refresh_access_token_margin (st : TokenState) (now : Int)
    (configOk : Bool) (auth : AuthResult) :
    -- cached token returned only when strictly before expiry, with no remote call
    ((refresh_access_token st now configOk auth).returned = some st.access_token ∧
        (refresh_access_token st now configOk auth).authCalled = false →
      st.access_token ≠ "" → now < st.token_expire_time) ∧
    -- a cache hit changes nothing and calls nothing
    (st.access_token ≠ "" ∧ now < st.token_expire_time →
      refresh_access_token st now configOk auth =
        { state := st, returned := some st.access_token, authCalled := false }) ∧
    -- successful refresh stores expiry `now + expires_in - 1200`
    (∀ tok ei, ¬ (st.access_token ≠ "" ∧ now < st.token_expire_time) →
      configOk → auth = .ok tok ei →
      (refresh_access_token st now configOk auth).state.token_expire_time =
        now + ei.getD 7200 - 1200) ∧
    -- expired cache: any returned token comes only after an Authenticator call
    (¬ (st.access_token ≠ "" ∧ now < st.token_expire_time) →
      ∀ tok, (refresh_access_token st now configOk auth).returned = some tok →
        (refresh_access_token st now configOk auth).authCalled = true) := by
  refine ⟨?_, ?_, ?_, ?_⟩
  · intro h hne
    by_contra hlt
    have hmiss : ¬ (st.access_token ≠ "" ∧ now < st.token_expire_time) := by
      push_neg
      intro _
      omega
    simp only [refresh_access_token, if_neg hmiss] at h
    rcases h with ⟨hret, hcall⟩
    split at hret
    · simp at hret
    · rcases auth with _ | _ | _ <;> simp_all
  · intro h
    simp [refresh_access_token, h.1, h.2]
  · intro tok ei hmiss hcfg hauth
    subst hauth
    simp [refresh_access_token, hmiss, hcfg]
  · intro hmiss tok hret
    simp only [refresh_access_token, if_neg hmiss] at hret ⊢
    split at hret
    · simp at hret
    · rcases auth with _ | _ | _ <;> simp_all

/-- Witness for C3 at a concrete input: cached token `"t"` expired
(`now = 10 ≥ expiry 5`), config ok, authenticator returns a token with
`expires_in = 7200`; the new expiry is `10 + 7200 - 1200` and the
Authenticator was called before the token was returned. -/
theorem refresh_access_token_margin_witness :
    (refresh_access_token ⟨"t", 5⟩ 10 true (.ok "fresh" (some 7200))).state.token_expire_time
        = 10 + 7200 - 1200 ∧
      (refresh_access_token ⟨"t", 5⟩ 10 true (.ok "fresh" (some 7200))).authCalled = true := by
  have h := refresh_access_token_margin ⟨"t", 5⟩ 10 true (.ok "fresh" (some 7200))
  refine ⟨h.2.2.1 "fresh" (some 7200) (by simp) rfl rfl, ?_⟩
  exact h.2.2.2 (by simp) "fresh" (by simp [refresh_access_token])

/-! ### Theorems about concurrent token acquisition (claim C2) -/

/-- **C2 counterexample.** Two callers that enter `_refresh_access_token`
simultaneously while the cached token is expired (empty token, expiry 0,
`now = 100`) can both pass the cache-validity test before either writes the
refreshed token: the interleaving `[0, 1, 0, 1]` makes **two** Authenticator
calls, not one.  The code has no lock, so this schedule is allowed. -/
theorem refresh_not_single_flight :
    (runSchedule 100 7200 "tok" (initRace 2 ⟨"", 0⟩) [0, 1, 0, 1]).authCalls = 2 ∧
      (runSchedule 100 7200 "tok" (initRace 2 ⟨"", 0⟩) [0, 1, 0, 1]).pcs =
        [.done (some "tok"), .done (some "tok")] := by
  constructor <;> rfl

/-- Once the shared token state is valid, further sequential callers hit the
cache: no Authenticator calls, state unchanged, all receive the cached token. -/
theorem seqAcquire_cached (now : Int) (configOk : Bool) (auth : AuthResult)
    (st : TokenState) (h : st.access_token ≠ "" ∧ now < st.token_expire_time) :
    ∀ k, seqAcquire now configOk auth k st =
      (st, 0, List.replicate k (some st.access_token)) := by
  intro k
  induction k with
  | zero => rfl
  | succ k ih =>
      have hr : refresh_access_token st now configOk auth =
          { state := st, returned := some st.access_token, authCalled := false } := by
        simp [refresh_access_token, h.1, h.2]
      simp [seqAcquire, hr, ih, List.replicate_succ]

/-- **C2 (amended).** The source has no concurrency guard, so `k` overlapping
callers may each call the Authenticator (see the counterexample).  When the
`k + 1` callers do not overlap — each `_refresh_access_token` call completes
before the next begins — exactly one Authenticator call is made (by the first
caller) and every caller receives the token produced by that single refresh,
provided the refreshed token is non-empty and `expires_in > 1200` (so the
stored expiry lies in the future). -/
theorem seqAcquire_single_refresh (now expires_in : Int) (tok : String)
    (k : Nat) (st0 : TokenState)
    (hmiss : ¬ (st0.access_token ≠ "" ∧ now < st0.token_expire_time))
    (htok : tok ≠ "") (hei : 1200 < expires_in) :
    seqAcquire now true (.ok tok (some expires_in)) (k + 1) st0 =
      ({ access_token := tok, token_expire_time := now + expires_in - 1200 }, 1,
        List.replicate (k + 1) (some tok)) := by
  have hr : refresh_access_token st0 now true (.ok tok (some expires_in)) =
      { state := { access_token := tok,
                   token_expire_time := now + expires_in - 1200 },
        returned := some tok, authCalled := true } := by
    simp [refresh_access_token, hmiss]
  have hgood :
      ({ access_token := tok, token_expire_time := now + expires_in - 1200 } :
          TokenState).access_token ≠ "" ∧
        now < ({ access_token := tok, token_expire_time := now + expires_in - 1200 } :
          TokenState).token_expire_time := by
    refine ⟨htok, ?_⟩
    simp only
    omega
  simp [seqAcquire, hr, seqAcquire_cached now true _ _ hgood k, List.replicate_succ]

/-- Witness for the amended C2: three non-overlapping callers starting from
the unset token state make exactly one Authenticator call and all receive the
refreshed token. -/
theorem seqAcquire_single_refresh_witness :
    seqAcquire 0 true (.ok "t" (some 7200)) (2 + 1) ⟨"", 0⟩ =
      ({ access_token := "t", token_expire_time := 0 + 7200 - 1200 }, 1,
        List.replicate (2 + 1) (some "t")) :=
  seqAcquire_single_refresh 0 7200 "t" 2 ⟨"", 0⟩ (by simp) (by simp) (by norm_num)

/-! ### Theorems about the operation history (claim C8) -/

/-- **C8 counterexample.** Starting from a full history of 1000 records, a
single successful `upload_product` call leaves **1001** records: the inner
`_record_operation` append is capped, but `upload_product`'s own direct
`self.operation_history.append(...)` is not, so the buffer exceeds the bound
after this client operation. -/
theorem upload_product_history_overflows :
    (upload_product_history (List.replicate 1000 (0 : ℕ)) true [1] 2).length = 1001 := by
  have hrec : record_operation (List.replicate 1000 (0 : ℕ)) 1 =
      ((List.replicate 1000 (0 : ℕ)) ++ [1]).drop 1 := by
    simp only [record_operation]
    rw [if_pos]
    simp only [List.length_append, List.length_replicate, List.length_cons,
      List.length_nil]
    omega
  rw [upload_product_history, if_neg (by simp), List.foldl_cons, List.foldl_nil, hrec]
  simp only [List.length_append, List.length_drop, List.length_replicate,
    List.length_cons, List.length_nil]

/-- **C8 (amended).** Appends made through `_record_operation` do keep the
buffer at ≤ 1000 entries and evict the oldest entry first (FIFO) when it is
full; but the direct appends at the end of `upload_product` / `add_product` /
`upload_image` bypass the cap, so the buffer can exceed 1000 entries after
those client operations (see the counterexample). -/
theorem record_operation_bounded (hist : List α) (r : α)
    (h : hist.length ≤ 1000) :
    (record_operation hist r).length ≤ 1000 ∧
      record_operation hist r =
        (if hist.length < 1000 then hist ++ [r] else hist.drop 1 ++ [r]) := by
  have hlen : (hist ++ [r]).length = hist.length + 1 := by simp
  by_cases hlt : hist.length < 1000
  · have hcond : ¬ 1000 < (hist ++ [r]).length := by omega
    have he : record_operation hist r = hist ++ [r] := by
      simp only [record_operation]
      rw [if_neg hcond]
    refine ⟨?_, ?_⟩
    · rw [he]
      omega
    · rw [he, if_pos hlt]
  · have hcond : 1000 < (hist ++ [r]).length := by omega
    have hone : 1 ≤ hist.length := by omega
    have hdrop : (hist ++ [r]).drop 1 = hist.drop 1 ++ [r] :=
      List.drop_append_of_le_length hone
    have he : record_operation hist r = (hist ++ [r]).drop 1 := by
      simp only [record_operation]
      rw [if_pos hcond]
    refine ⟨?_, ?_⟩
    · rw [he, List.length_drop]
      omega
    · rw [he, hdrop, if_neg hlt]

/-- Witness for the amended C8: appending to a full buffer of 1000 entries
through `_record_operation` keeps 1000 entries and drops the oldest. -/
theorem record_operation_bounded_witness :
    (record_operation (List.replicate 1000 (0 : ℕ)) 1).length ≤ 1000 ∧
      record_operation (List.replicate 1000 (0 : ℕ)) 1 =
        (List.replicate 1000 (0 : ℕ)).drop 1 ++ [1] := by
  have h := record_operation_bounded (List.replicate 1000 (0 : ℕ)) 1
    (by rw [List.length_replicate])
  refine ⟨h.1, ?_⟩
  rw [h.2, if_neg (by rw [List.length_replicate]; omega)]

/-! ### Theorems about single-item upload (claims C9, C10, C4, C5) -/

/-- **C9.** An item that fails input validation is recorded as failed by a
single `upload_single_product` invocation which returns
`(False, {'error': ...})` immediately: no `add_product` call is made, no
retry is consumed and no sleep happens. -/
theorem upload_single_product_validation_fails_fast (env : SingleEnv)
    (cfg : UploadCfg) (p : Product) (hval : validate_product_data p = false) :
    (upload_single_product env cfg p 0).result =
        .ok (false, .errDict "商品数据验证失败") ∧
      (upload_single_product env cfg p 0).calls = 0 ∧
      (upload_single_product env cfg p 0).invocations = 1 ∧
      (upload_single_product env cfg p 0).waits = [] := by
  refine ⟨?_, ?_, ?_, ?_⟩ <;> simp [upload_single_product, hval]

/-- Witness for C9: a product without `title` fails validation and is
rejected with zero remote calls in one invocation. -/
theorem upload_single_product_validation_fails_fast_witness :
    validate_product_data prodNoTitle = false ∧
      (upload_single_product (constEnv respOK) {} prodNoTitle 0).calls = 0 ∧
      (upload_single_product (constEnv respOK) {} prodNoTitle 0).invocations = 1 := by
  have hval : validate_product_data prodNoTitle = false := by
    simp [validate_product_data, prodNoTitle, pyTruthyStr]
  have h := upload_single_product_validation_fails_fast (constEnv respOK) {}
    prodNoTitle hval
  exact ⟨hval, h.2.1, h.2.2.1⟩

/-- **C10.** `upload_single_product` is not total over its documented
interface: with `self.api_client` unset and `_initialize_api_client()`
raising, the `except` handler reads the local `max_retries` before line 207
assigned it, so the call raises `NameError` (`UnboundLocalError`) instead of
returning a `(success, response)` tuple. -/
theorem upload_single_product_unassigned_max_retries (env : SingleEnv)
    (cfg : UploadCfg) (p : Product) (hval : validate_product_data p = true)
    (hready : env.apiClientReady = false) (hinit : env.initSucceeds = false) :
    (upload_single_product env cfg p 0).result = .error .nameError := by
  simp [upload_single_product, hval, hready, hinit]

/-- Witness for C10 at a concrete valid product and a broken client. -/
theorem upload_single_product_unassigned_max_retries_witness :
    validate_product_data prodOK = true ∧
      (upload_single_product brokenClientEnv {} prodOK 0).result =
        .error .nameError := by
  have hval : validate_product_data prodOK = true := by
    simp [validate_product_data, prodOK, pyTruthyStr, pyTruthyList, pyTruthyPrice,
      PriceVal.truthy, PriceVal.floatOk]
  exact ⟨hval, upload_single_product_unassigned_max_retries brokenClientEnv {}
    prodOK hval rfl rfl⟩

/-- **C4 counterexample.** Remote code 40001 is NOT in the source's
`non_retryable_codes = [400, 401, 403]`, so an item whose submission always
returns 40001 is retried: with the default `max_retries = 3` the uploader
makes 4 `add_product` calls — not 1 — before recording the failure. -/
theorem upload_40001_is_retried :
    (upload_single_product (constEnv resp40001) {} prodOK 0).calls = 4 ∧
      (upload_single_product (constEnv resp40001) {} prodOK 0).result =
        .ok (false, .resp resp40001) := by
  constructor <;>
    simp [upload_single_product, constEnv, resp40001, prodOK, validate_product_data,
      pyTruthyStr, pyTruthyList, pyTruthyPrice, PriceVal.truthy, PriceVal.floatOk,
      errcode_non_retryable, non_retryable_codes]

/-- **C4 (amended).** The source's non-retryable list is `[400, 401, 403]`:
a remote error code in that list is returned immediately as a failure, with
exactly one `add_product` call, one invocation and no sleep; codes outside
the list — 40001 included — are retried instead (see the counterexample). -/
theorem upload_single_product_non_retryable_immediate (env : SingleEnv)
    (cfg : UploadCfg) (p : Product) (d : RespDict) (c : Int)
    (hval : validate_product_data p = true)
    (hready : env.apiClientReady = true)
    (htr : env.tr 0 = .ret (.rdict d))
    (hne : d.nonempty = true)
    (hcode : d.errcode = some c)
    (hc : c ∈ non_retryable_codes) :
    upload_single_product env cfg p 0 =
      { result := .ok (false, .resp (.rdict d)), calls := 1, invocations := 1,
        waits := [] } := by
  have hc0 : c ≠ 0 := by
    simp only [non_retryable_codes, List.mem_cons, List.not_mem_nil, or_false] at hc
    rcases hc with rfl | rfl | rfl <;> norm_num
  have hnr : errcode_non_retryable (some c) = true := by
    simp [errcode_non_retryable, hc]
  rw [upload_single_product.eq_def]
  simp [hval, hready, htr, hne, hcode, hnr, hc0]

/-- Witness for the amended C4: code 400 fails in exactly one attempt. -/
theorem upload_single_product_non_retryable_immediate_witness :
    (400 : Int) ∈ non_retryable_codes ∧
      upload_single_product (constEnv resp400) {} prodOK 0 =
        { result := .ok (false, .resp resp400), calls := 1, invocations := 1,
          waits := [] } := by
  have hval : validate_product_data prodOK = true := by
    simp [validate_product_data, prodOK, pyTruthyStr, pyTruthyList, pyTruthyPrice,
      PriceVal.truthy, PriceVal.floatOk]
  refine ⟨by simp [non_retryable_codes], ?_⟩
  exact upload_single_product_non_retryable_immediate (constEnv resp400) {} prodOK
    { errcode := some 400, errmsg := some "bad request" } 400 hval rfl rfl rfl rfl
    (by simp [non_retryable_codes])

/-- Helper for C5: starting from `retry_count = max_retries - i`, persistent
retryable failures produce exactly `i + 1` further `add_product` calls in
`i + 1` invocations, sleeping `attempt * 2` seconds before each retry, and
end in a recorded failure. -/
theorem usp_persistent_aux (env : SingleEnv) (cfg : UploadCfg) (p : Product)
    (hval : validate_product_data p = true)
    (hready : env.apiClientReady = true)
    (hfail : ∀ k, retryableOutcome (env.tr k) = true) :
    ∀ i, i ≤ cfg.max_retries →
      (upload_single_product env cfg p (cfg.max_retries - i)).calls = i + 1 ∧
      (upload_single_product env cfg p (cfg.max_retries - i)).invocations = i + 1 ∧
      (upload_single_product env cfg p (cfg.max_retries - i)).waits =
        (List.range' (cfg.max_retries - i + 1) i).map (· * retry_delay_base) ∧
      ∃ rv, (upload_single_product env cfg p (cfg.max_retries - i)).result =
        .ok (false, rv) := by
  intro i
  induction i with
  | zero =>
      intro _
      simp only [Nat.sub_zero]
      have hro := hfail cfg.max_retries
      rcases htr : env.tr cfg.max_retries with resp | msg
      · rcases resp with d | t
        · rw [htr] at hro
          simp only [retryableOutcome, Bool.and_eq_true, Bool.not_eq_true',
            decide_eq_true_eq] at hro
          obtain ⟨⟨hne, hnz⟩, hnr⟩ := hro
          have heq : upload_single_product env cfg p cfg.max_retries =
              { result := .ok (false, .resp (.rdict d)), calls := 1,
                invocations := 1, waits := [] } := by
            rw [upload_single_product.eq_def]
            simp [hval, hready, htr, hne, hnz, hnr]
          rw [heq]
          exact ⟨rfl, rfl, by simp, ⟨_, rfl⟩⟩
        · rw [htr] at hro
          simp [retryableOutcome] at hro
      · have heq : upload_single_product env cfg p cfg.max_retries =
            { result := .ok (false, .errDict msg), calls := 1,
              invocations := 1, waits := [] } := by
          rw [upload_single_product.eq_def]
          simp [hval, hready, htr]
        rw [heq]
        exact ⟨rfl, rfl, by simp, ⟨_, rfl⟩⟩
  | succ i ih =>
      intro hle
      have hlt : cfg.max_retries - (i + 1) < cfg.max_retries := by omega
      have hrc : cfg.max_retries - (i + 1) + 1 = cfg.max_retries - i := by omega
      obtain ⟨ih1, ih2, ih3, rv, ih4⟩ := ih (by omega)
      have hro := hfail (cfg.max_retries - (i + 1))
      rcases htr : env.tr (cfg.max_retries - (i + 1)) with resp | msg
      · rcases resp with d | t
        · rw [htr] at hro
          simp only [retryableOutcome, Bool.and_eq_true, Bool.not_eq_true',
            decide_eq_true_eq] at hro
          obtain ⟨⟨hne, hnz⟩, hnr⟩ := hro
          have heq : upload_single_product env cfg p (cfg.max_retries - (i + 1)) =
              { result :=
                  (upload_single_product env cfg p (cfg.max_retries - i)).result,
                calls :=
                  (upload_single_product env cfg p (cfg.max_retries - i)).calls + 1,
                invocations :=
                  (upload_single_product env cfg p (cfg.max_retries - i)).invocations
                    + 1,
                waits := (cfg.max_retries - (i + 1) + 1) * retry_delay_base ::
                  (upload_single_product env cfg p (cfg.max_retries - i)).waits } := by
            rw [upload_single_product.eq_def]
            simp [hval, hready, htr, hne, hnz, hnr, hlt, hrc]
          rw [heq]
          refine ⟨by rw [ih1], by rw [ih2], ?_, ⟨rv, ih4⟩⟩
          rw [ih3, hrc, List.range'_succ]
          simp [hrc]
        · rw [htr] at hro
          simp [retryableOutcome] at hro
      · have heq : upload_single_product env cfg p (cfg.max_retries - (i + 1)) =
            { result :=
                (upload_single_product env cfg p (cfg.max_retries - i)).result,
              calls :=
                (upload_single_product env cfg p (cfg.max_retries - i)).calls + 1,
              invocations :=
                (upload_single_product env cfg p (cfg.max_retries - i)).invocations
                  + 1,
              waits := (cfg.max_retries - (i + 1) + 1) * retry_delay_base ::
                (upload_single_product env cfg p (cfg.max_retries - i)).waits } := by
          rw [upload_single_product.eq_def]
          simp [hval, hready, htr, hlt, hrc]
        rw [heq]
        refine ⟨by rw [ih1], by rw [ih2], ?_, ⟨rv, ih4⟩⟩
        rw [ih3, hrc, List.range'_succ]
        simp [hrc]

/-- **C5.** When every submission attempt fails with a retryable error (a
transport exception, or a truthy response dict whose `errcode` is neither `0`
nor in `non_retryable_codes`), `upload_single_product` makes exactly
`max_retries + 1` `add_product` calls (the initial attempt plus `max_retries`
retries, default 3), sleeping `attempt * 2` seconds before the `attempt`-th
retry (`wait_time = (retry_count + 1) * 2`), and records the item as
failed. -/
theorem upload_single_product_persistent_retryable (env : SingleEnv)
    (cfg : UploadCfg) (p : Product)
    (hval : validate_product_data p = true)
    (hready : env.apiClientReady = true)
    (hfail : ∀ k, retryableOutcome (env.tr k) = true) :
    (upload_single_product env cfg p 0).calls = cfg.max_retries + 1 ∧
      (upload_single_product env cfg p 0).invocations = cfg.max_retries + 1 ∧
      (upload_single_product env cfg p 0).waits =
        (List.range' 1 cfg.max_retries).map (· * retry_delay_base) ∧
      ∃ rv, (upload_single_product env cfg p 0).result = .ok (false, rv) := by
  have h := usp_persistent_aux env cfg p hval hready hfail cfg.max_retries le_rfl
  simpa using h

/-- Witness for C5: a transport that always answers code 40001 (retryable by
the code's list) exhausts the default budget: 4 calls, sleeps 2, 4, 6. -/
theorem upload_single_product_persistent_retryable_witness :
    validate_product_data prodOK = true ∧
      (upload_single_product (constEnv resp40001) {} prodOK 0).invocations = 4 ∧
      (upload_single_product (constEnv resp40001) {} prodOK 0).waits = [2, 4, 6] := by
  have hval : validate_product_data prodOK = true := by
    simp [validate_product_data, prodOK, pyTruthyStr, pyTruthyList, pyTruthyPrice,
      PriceVal.truthy, PriceVal.floatOk]
  have h := upload_single_product_persistent_retryable (constEnv resp40001) {}
    prodOK hval rfl
    (fun k => by
      simp [constEnv, retryableOutcome, resp40001, errcode_non_retryable,
        non_retryable_codes])
  exact ⟨hval, h.2.1, h.2.2.1⟩

/-! ### Machinery for the batch claims (C1, C6, C7) -/

/-- An exception escapes `upload_single_product` only on the broken-client
path: whenever its result is an error, `self.api_client` was unset. -/
theorem usp_error_imp (env : SingleEnv) (cfg : UploadCfg) (p : Product) :
    ∀ k rc e, cfg.max_retries - rc ≤ k →
      (upload_single_product env cfg p rc).result = .error e →
      env.apiClientReady = false := by
  intro k
  induction k with
  | zero =>
      intro rc e hk hcon
      have hge : ¬ rc < cfg.max_retries := by omega
      rw [upload_single_product.eq_def] at hcon
      split at hcon
      · simp at hcon
      · split at hcon
        · rename_i h
          cases hb : env.apiClientReady
          · rfl
          · exact absurd hb h.1
        · split at hcon
          · -- transport raised: the retry branch is impossible here (hge)
            simp at hcon
          · -- transport returned a value
            split at hcon
            · -- a dict response
              split at hcon
              · split at hcon
                · simp at hcon
                · split at hcon
                  · rename_i h
                    exact absurd h.1 hge
                  · simp at hcon
              · simp at hcon
            · simp at hcon
  | succ k ih =>
      intro rc e hk hcon
      rw [upload_single_product.eq_def] at hcon
      split at hcon
      · simp at hcon
      · split at hcon
        · rename_i h
          cases hb : env.apiClientReady
          · rfl
          · exact absurd hb h.1
        · split at hcon
          · -- transport raised
            split at hcon
            · simp only at hcon
              exact ih (rc + 1) e (by omega) hcon
            · simp at hcon
          · -- transport returned a value
            split at hcon
            · -- a dict response
              split at hcon
              · split at hcon
                · simp at hcon
                · split at hcon
                  · simp only at hcon
                    exact ih (rc + 1) e (by omega) hcon
                  · simp at hcon
              · simp at hcon
            · simp at hcon

/-- With an initialized client, `upload_single_product` always returns a
`(success, response)` tuple. -/
theorem usp_result_ok (env : SingleEnv) (cfg : UploadCfg) (p : Product)
    (hready : env.apiClientReady = true) (rc : Nat) :
    ∃ v, (upload_single_product env cfg p rc).result = .ok v := by
  rcases hres : (upload_single_product env cfg p rc).result with e | v
  · have := usp_error_imp env cfg p (cfg.max_retries - rc) rc e le_rfl hres
    rw [hready] at this
    exact absurd this (by simp)
  · exact ⟨v, rfl⟩

/-- Concatenating the batch slices gives back the item list. -/
theorem chunks_flatten (n : Nat) (hn : 0 < n) :
    ∀ l : List Product, (chunks n l).flatten = l := by
  obtain ⟨m, rfl⟩ : ∃ m, n = m + 1 := ⟨n - 1, by omega⟩
  have H : ∀ k (l : List Product), l.length ≤ k →
      (chunks (m + 1) l).flatten = l := by
    intro k
    induction k with
    | zero =>
        intro l hl
        have hnil : l = [] := List.length_eq_zero.mp (by omega)
        subst hnil
        simp [chunks]
    | succ k ih =>
        intro l hl
        rcases l with _ | ⟨x, xs⟩
        · simp [chunks]
        · have hstep : chunks (m + 1) (x :: xs) =
              (x :: xs).take (m + 1) :: chunks (m + 1) ((x :: xs).drop (m + 1)) := by
            rw [chunks.eq_def]
          rw [hstep, List.flatten_cons,
            ih ((x :: xs).drop (m + 1)) (by simp only [List.length_drop]; simp at hl ⊢; omega),
            List.take_append_drop]
  exact fun l => H l.length l le_rfl

/-- Per-batch loop invariants: a successful `runBatch` over `b` starting at
global 0-based offset `idx` appends `b.length` details indexed
`idx+1, …, idx+b.length`, adds one to `success + failed` per item, and runs
the pacing sleep after every item of the batch except its last. -/
theorem runBatch_ok_map (env : BatchEnv) (cfg : UploadCfg) :
    ∀ (b : List Product) (idx : Nat) (acc acc' : SeqAcc),
      runBatch env cfg b idx acc = .ok acc' →
      acc'.details.length = acc.details.length + b.length ∧
      acc'.details.map (·.index) =
        acc.details.map (·.index) ++ List.range' (idx + 1) b.length ∧
      acc'.success + acc'.failed = acc.success + acc.failed + b.length ∧
      acc'.pacing = acc.pacing ++ List.range' (idx + 1) (b.length - 1) := by
  intro b
  induction b with
  | nil =>
      intro idx acc acc' h
      simp only [runBatch, Except.ok.injEq] at h
      subst h
      simp
  | cons p rest ih =>
      intro idx acc acc' h
      simp only [runBatch] at h
      rcases hp : p.title with _ | t
      · simp [hp] at h
      · simp only [hp] at h
        rcases hres : (upload_single_product (env.itemEnv idx) cfg p 0).result
          with e | v
        · simp [hres] at h
        · rcases v with ⟨succ, rv⟩
          simp only [hres] at h
          obtain ⟨h1, h2, h3, h4⟩ := ih (idx + 1) _ acc' h
          refine ⟨?_, ?_, ?_, ?_⟩
          · simp only [List.length_append, List.length_cons, List.length_nil] at h1 ⊢
            omega
          · rw [h2]
            simp [List.range'_succ]
          · rcases succ with _ | _ <;>
              simp only [] at h3 <;> simp at h3 ⊢ <;> omega
          · rw [h4]
            rcases rest with _ | ⟨p2, rest2⟩ <;> simp [List.range'_succ]

/-- With an initialized client, `runBatch` succeeds whenever every item of
the batch has a `title` key. -/
theorem runBatch_ok_exists (env : BatchEnv) (cfg : UploadCfg)
    (hready : env.apiClientReady = true) :
    ∀ (b : List Product) (idx : Nat) (acc : SeqAcc),
      (∀ p ∈ b, p.title ≠ none) →
      ∃ acc', runBatch env cfg b idx acc = .ok acc' := by
  intro b
  induction b with
  | nil => exact fun idx acc _ => ⟨acc, rfl⟩
  | cons p rest ih =>
      intro idx acc htitle
      rcases hp : p.title with _ | t
      · exact absurd hp (htitle p (by simp))
      · obtain ⟨v, hv⟩ := usp_result_ok (env.itemEnv idx) cfg p hready 0
        rcases v with ⟨succ, rv⟩
        obtain ⟨acc', hacc'⟩ := ih (idx + 1) _
          (fun q hq => htitle q (by simp [hq]))
        refine ⟨acc', ?_⟩
        simp only [runBatch, hp, hv]
        exact hacc'

/-- Arithmetic helper: inside the window `(bs*c, bs*(c+1))` the residue of `q`
modulo `bs` is its offset from the window start. -/
theorem mod_of_lt_window (bs c q : Nat) (h1 : bs * c < q)
    (h2 : q < bs * c + bs) : q % bs = q - bs * c := by
  have h := Nat.mul_add_mod bs c (q - bs * c)
  rw [show bs * c + (q - bs * c) = q from by omega] at h
  rw [h]
  exact Nat.mod_eq_of_lt (by omega)

/-- Whole-run invariants for the batched sequential loop: a successful
`runBatches` over the `batch_size`-slices of `l`, starting at the chunk
boundary `batch_size * c`, appends `l.length` details indexed consecutively,
adds one to `success + failed` per item, and paces exactly after the
positions that are neither the global last item nor a chunk boundary. -/
theorem runBatches_chunks_map (env : BatchEnv) (cfg : UploadCfg)
    (hbs : 0 < cfg.batch_size) :
    ∀ (l : List Product) (c : Nat) (acc acc' : SeqAcc),
      runBatches env cfg (chunks cfg.batch_size l) (cfg.batch_size * c) acc =
        .ok acc' →
      acc'.details.length = acc.details.length + l.length ∧
      acc'.details.map (·.index) =
        acc.details.map (·.index) ++
          List.range' (cfg.batch_size * c + 1) l.length ∧
      acc'.success + acc'.failed = acc.success + acc.failed + l.length ∧
      (∀ q, q ∈ acc'.pacing ↔ q ∈ acc.pacing ∨
        (cfg.batch_size * c + 1 ≤ q ∧ q < cfg.batch_size * c + l.length ∧
          q % cfg.batch_size ≠ 0)) := by
  have H : ∀ k (l : List Product), l.length ≤ k → ∀ c acc acc',
      runBatches env cfg (chunks cfg.batch_size l) (cfg.batch_size * c) acc =
        .ok acc' →
      acc'.details.length = acc.details.length + l.length ∧
      acc'.details.map (·.index) =
        acc.details.map (·.index) ++
          List.range' (cfg.batch_size * c + 1) l.length ∧
      acc'.success + acc'.failed = acc.success + acc.failed + l.length ∧
      (∀ q, q ∈ acc'.pacing ↔ q ∈ acc.pacing ∨
        (cfg.batch_size * c + 1 ≤ q ∧ q < cfg.batch_size * c + l.length ∧
          q % cfg.batch_size ≠ 0)) := by
    intro k
    induction k with
    | zero =>
        intro l hl c acc acc' hrun
        have hnil : l = [] := List.length_eq_zero.mp (by omega)
        subst hnil
        have hch : chunks cfg.batch_size ([] : List Product) = [] := by
          obtain ⟨m, hm⟩ : ∃ m, cfg.batch_size = m + 1 :=
            ⟨cfg.batch_size - 1, by omega⟩
          rw [hm]
          simp [chunks]
        rw [hch] at hrun
        simp only [runBatches, Except.ok.injEq] at hrun
        subst hrun
        refine ⟨by simp, by simp, by simp, fun q => ?_⟩
        constructor
        · exact fun hq => Or.inl hq
        · rintro (hq | hq)
          · exact hq
          · simp only [List.length_nil] at hq
            omega
    | succ k ih =>
        intro l hl c acc acc' hrun
        rcases l with _ | ⟨x, xs⟩
        · have hch : chunks cfg.batch_size ([] : List Product) = [] := by
            obtain ⟨m, hm⟩ : ∃ m, cfg.batch_size = m + 1 :=
              ⟨cfg.batch_size - 1, by omega⟩
            rw [hm]
            simp [chunks]
          rw [hch] at hrun
          simp only [runBatches, Except.ok.injEq] at hrun
          subst hrun
          refine ⟨by simp, by simp, by simp, fun q => ?_⟩
          constructor
          · exact fun hq => Or.inl hq
          · rintro (hq | hq)
            · exact hq
            · simp only [List.length_nil] at hq
              omega
        · have hstep : chunks cfg.batch_size (x :: xs) =
              (x :: xs).take cfg.batch_size ::
                chunks cfg.batch_size ((x :: xs).drop cfg.batch_size) := by
            obtain ⟨m, hm⟩ : ∃ m, cfg.batch_size = m + 1 :=
              ⟨cfg.batch_size - 1, by omega⟩
            rw [hm, chunks.eq_def]
          rw [hstep] at hrun
          simp only [runBatches] at hrun
          rcases hb : runBatch env cfg ((x :: xs).take cfg.batch_size)
              (cfg.batch_size * c) acc with e | acc1
          · rw [hb] at hrun
            simp at hrun
          · rw [hb] at hrun
            obtain ⟨b1, b2, b3, b4⟩ := runBatch_ok_map env cfg _ _ _ _ hb
            by_cases hle : (x :: xs).length ≤ cfg.batch_size
            · -- the whole remaining list fits in this batch
              have htake : (x :: xs).take cfg.batch_size = x :: xs :=
                List.take_of_length_le hle
              have hdrop : (x :: xs).drop cfg.batch_size = [] :=
                List.drop_eq_nil_of_le hle
              rw [hdrop] at hrun
              have hch : chunks cfg.batch_size ([] : List Product) = [] := by
                obtain ⟨m, hm⟩ : ∃ m, cfg.batch_size = m + 1 :=
                  ⟨cfg.batch_size - 1, by omega⟩
                rw [hm]
                simp [chunks]
              rw [hch] at hrun
              simp only [runBatches, Except.ok.injEq] at hrun
              subst hrun
              rw [htake] at b1 b2 b3 b4
              refine ⟨b1, b2, b3, fun q => ?_⟩
              rw [b4]
              simp only [List.length_cons] at hle
              simp only [List.mem_append, List.mem_range'_1, List.length_cons]
              constructor
              · rintro (hq | hq)
                · exact Or.inl hq
                · refine Or.inr ⟨by omega, by omega, ?_⟩
                  rw [mod_of_lt_window cfg.batch_size c q (by omega) (by omega)]
                  omega
              · rintro (hq | ⟨hq1, hq2, hq3⟩)
                · exact Or.inl hq
                · exact Or.inr ⟨hq1, by omega⟩
            · -- this batch is full and more items follow
              push_neg at hle
              have htl : ((x :: xs).take cfg.batch_size).length = cfg.batch_size := by
                simp only [List.length_take]
                omega
              rw [htl] at b1 b2 b3 b4 hrun
              have harith : cfg.batch_size * c + cfg.batch_size =
                  cfg.batch_size * (c + 1) := by ring
              rw [harith] at hrun
              have hdl : ((x :: xs).drop cfg.batch_size).length ≤ k := by
                simp only [List.length_drop, List.length_cons]
                simp only [List.length_cons] at hl
                omega
              obtain ⟨r1, r2, r3, r4⟩ := ih _ hdl (c + 1) acc1 acc' hrun
              have hlen : ((x :: xs).drop cfg.batch_size).length =
                  (x :: xs).length - cfg.batch_size := by
                simp [List.length_drop]
              refine ⟨?_, ?_, ?_, fun q => ?_⟩
              · rw [r1, b1, hlen]
                simp only [List.length_cons] at *
                omega
              · rw [r2, b2, List.append_assoc, hlen]
                congr 1
                have h3 : ((x :: xs).length - cfg.batch_size) + cfg.batch_size =
                    (x :: xs).length := by
                  simp only [List.length_cons] at *
                  omega
                calc List.range' (cfg.batch_size * c + 1) cfg.batch_size ++
                      List.range' (cfg.batch_size * (c + 1) + 1)
                        ((x :: xs).length - cfg.batch_size)
                    = List.range' (cfg.batch_size * c + 1) cfg.batch_size ++
                      List.range' ((cfg.batch_size * c + 1) + 1 * cfg.batch_size)
                        ((x :: xs).length - cfg.batch_size) := by
                      rw [show (cfg.batch_size * c + 1) + 1 * cfg.batch_size =
                        cfg.batch_size * (c + 1) + 1 from by ring]
                  _ = List.range' (cfg.batch_size * c + 1)
                        (((x :: xs).length - cfg.batch_size) + cfg.batch_size) :=
                      List.range'_append _ _ _ _
                  _ = List.range' (cfg.batch_size * c + 1) (x :: xs).length := by
                      rw [h3]
              · rw [r3, b3, hlen]
                simp only [List.length_cons] at *
                omega
              · rw [r4 q, b4]
                have hmul : cfg.batch_size * (c + 1) =
                    cfg.batch_size * c + cfg.batch_size := by ring
                simp only [List.length_cons] at hle
                simp only [List.mem_append, List.mem_range'_1, hlen,
                  List.length_cons]
                constructor
                · rintro ((hq | hq) | ⟨hq1, hq2, hq3⟩)
                  · exact Or.inl hq
                  · refine Or.inr ⟨by omega, by omega, ?_⟩
                    rw [mod_of_lt_window cfg.batch_size c q (by omega) (by omega)]
                    omega
                  · exact Or.inr ⟨by omega, by omega, hq3⟩
                · rintro (hq | ⟨hq1, hq2, hq3⟩)
                  · exact Or.inl (Or.inl hq)
                  · rcases Nat.lt_or_ge q (cfg.batch_size * c + cfg.batch_size)
                      with hf | hf
                    · exact Or.inl (Or.inr ⟨hq1, by omega⟩)
                    · rcases Nat.eq_or_lt_of_le hf with hf2 | hf2
                      · exfalso
                        have hq5 : q = cfg.batch_size * (c + 1) := by omega
                        rw [hq5, Nat.mul_mod_right] at hq3
                        exact hq3 rfl
                      · exact Or.inr ⟨by omega, by omega, hq3⟩
  exact fun l => H l.length l le_rfl

/-- With an initialized client, `runBatches` succeeds whenever every item of
every batch has a `title` key. -/
theorem runBatches_ok_exists (env : BatchEnv) (cfg : UploadCfg)
    (hready : env.apiClientReady = true) :
    ∀ (bs : List (List Product)) (idx : Nat) (acc : SeqAcc),
      (∀ b ∈ bs, ∀ p ∈ b, p.title ≠ none) →
      ∃ acc', runBatches env cfg bs idx acc = .ok acc' := by
  intro bs
  induction bs with
  | nil => exact fun idx acc _ => ⟨acc, rfl⟩
  | cons b rest ih =>
      intro idx acc htitle
      obtain ⟨acc1, h1⟩ :=
        runBatch_ok_exists env cfg hready b idx acc (htitle b (by simp))
      obtain ⟨acc', h2⟩ := ih (idx + b.length) acc1
        (fun b' hb' => htitle b' (by simp [hb']))
      exact ⟨acc', by simp only [runBatches, h1]; exact h2⟩

/-- A task's detail record carries `index = i + 1`. -/
theorem asyncTask_index (env : BatchEnv) (cfg : UploadCfg) (i : Nat)
    (p : Product) (d : Detail) :
    asyncTask env cfg i p = .ok d → d.index = i + 1 := by
  intro h
  simp only [asyncTask] at h
  rcases hp : p.title with _ | t
  · simp [hp] at h
  · simp only [hp] at h
    rcases hr : (upload_single_product (env.itemEnv i) cfg p 0).result with e | v
    · simp [hr] at h
    · rcases v with ⟨succ, rv⟩
      simp only [hr, Except.ok.injEq] at h
      subst h
      rfl

/-- `gather` collects one detail per item, in task-creation (input) order. -/
theorem gatherTasks_map (env : BatchEnv) (cfg : UploadCfg) :
    ∀ (products : List Product) (i : Nat) (ds : List Detail),
      gatherTasks env cfg products i = .ok ds →
      ds.length = products.length ∧
      ds.map (·.index) = List.range' (i + 1) products.length := by
  intro products
  induction products with
  | nil =>
      intro i ds h
      simp only [gatherTasks, Except.ok.injEq] at h
      subst h
      simp
  | cons p rest ih =>
      intro i ds h
      simp only [gatherTasks] at h
      rcases ht : asyncTask env cfg i p with e | d
      · simp [ht] at h
      · simp only [ht] at h
        rcases hg : gatherTasks env cfg rest (i + 1) with e | ds'
        · simp [hg] at h
        · simp only [hg, Except.ok.injEq] at h
          subst h
          obtain ⟨l1, l2⟩ := ih (i + 1) ds' hg
          have hidx := asyncTask_index env cfg i p d ht
          refine ⟨by simp [l1], ?_⟩
          simp only [List.map_cons, l2, hidx, List.length_cons,
            List.range'_succ]

/-- With an initialized client, `gather` succeeds whenever every item has a
`title` key. -/
theorem gatherTasks_ok_exists (env : BatchEnv) (cfg : UploadCfg)
    (hready : env.apiClientReady = true) :
    ∀ (products : List Product) (i : Nat),
      (∀ p ∈ products, p.title ≠ none) →
      ∃ ds, gatherTasks env cfg products i = .ok ds := by
  intro products
  induction products with
  | nil => exact fun i _ => ⟨[], rfl⟩
  | cons p rest ih =>
      intro i htitle
      rcases hp : p.title with _ | t
      · exact absurd hp (htitle p (by simp))
      · obtain ⟨v, hv⟩ := usp_result_ok (env.itemEnv i) cfg p hready 0
        rcases v with ⟨succ, rv⟩
        obtain ⟨ds', hds'⟩ := ih (i + 1) (fun q hq => htitle q (by simp [hq]))
        refine ⟨Detail.mk (i + 1) t (p.out_product_id.getD "") succ rv :: ds', ?_⟩
        simp only [gatherTasks, asyncTask, hp, hv, hds']

/-! ### Theorems about result ordering (claim C1) -/

/-- **C1 counterexample.** Detail indices are 1-based: a single-item batch
records `details[0]['index'] = 1`, not `0` as `results[i].index == i`
demands (`current_index = i + j + 1` at line 329). -/
theorem upload_products_index_not_zero_based :
    (upload_products allOKEnv {} [prodOK]).map
        (fun r => r.results.details.map (·.index)) = .ok [1] ∧
      (upload_products allOKEnv {} [prodOK]).map
        (fun r => r.results.details.map (·.index)) ≠ .ok [0] := by
  have h1 : (upload_products allOKEnv {} [prodOK]).map
      (fun r => r.results.details.map (·.index)) = .ok [1] := by
    simp [upload_products, runBatches, runBatch, chunks, upload_single_product,
      allOKEnv, BatchEnv.itemEnv, prodOK, respOK, validate_product_data,
      pyTruthyStr, pyTruthyList, pyTruthyPrice, PriceVal.truthy,
      PriceVal.floatOk, Except.map]
  refine ⟨h1, ?_⟩
  rw [h1]
  simp

/-- **C1 (amended).** Both batch entry points return one detail record per
input item, and the `index` fields are the consecutive **1-based** input
positions (`details[i]['index'] = i + 1`, not `i`): results are ordered by
original input position regardless of execution order. -/
theorem batch_details_ordered (env : BatchEnv) (cfg : UploadCfg)
    (products : List Product) (r : SeqRun) (elapsed : Nat) (br : BatchResults)
    (hbs : 0 < cfg.batch_size)
    (hseq : upload_products env cfg products = .ok r)
    (hasync : upload_products_async env cfg products elapsed = .ok br) :
    r.results.details.length = products.length ∧
      r.results.details.map (·.index) = List.range' 1 products.length ∧
      br.details.length = products.length ∧
      br.details.map (·.index) = List.range' 1 products.length := by
  by_cases hnil : products = []
  · subst hnil
    have hz : upload_products env cfg [] = .ok ⟨⟨0, 0, 0, [], none, none⟩, []⟩ := by
      simp [upload_products]
    have hza : upload_products_async env cfg [] elapsed =
        .ok ⟨0, 0, 0, [], none, none⟩ := by
      simp [upload_products_async]
    rw [hz] at hseq
    rw [hza] at hasync
    simp only [Except.ok.injEq] at hseq hasync
    subst hseq
    subst hasync
    simp
  · simp only [upload_products, if_neg hnil] at hseq
    rcases hrb : runBatches env cfg (chunks cfg.batch_size products) 0
        ⟨[], 0, 0, 0, []⟩ with e | acc
    · rw [hrb] at hseq
      simp at hseq
    · rw [hrb] at hseq
      simp only [Except.ok.injEq] at hseq
      subst hseq
      obtain ⟨m1, m2, m3, m4⟩ := runBatches_chunks_map env cfg hbs products 0
        ⟨[], 0, 0, 0, []⟩ acc (by simpa using hrb)
      simp only [upload_products_async, if_neg hnil] at hasync
      rcases hg : gatherTasks env cfg products 0 with e | ds
      · rw [hg] at hasync
        simp at hasync
      · rw [hg] at hasync
        simp only [Except.ok.injEq] at hasync
        subst hasync
        obtain ⟨g1, g2⟩ := gatherTasks_map env cfg products 0 ds hg
        exact ⟨by simpa using m1, by simpa using m2, by simpa using g1,
          by simpa using g2⟩

/-- Witness for the amended C1: a two-item batch, sequential and concurrent,
yields indices `[1, 2]` in both result lists. -/
theorem batch_details_ordered_witness :
    (upload_products allOKEnv {} [prodOK, prodOK]).map
        (fun r => r.results.details.map (·.index)) = .ok (List.range' 1 2) ∧
      (upload_products_async allOKEnv {} [prodOK, prodOK] 7).map
        (fun br => br.details.map (·.index)) = .ok (List.range' 1 2) := by
  rcases hs : upload_products allOKEnv {} [prodOK, prodOK] with e | r
  · exfalso
    revert hs
    simp [upload_products, runBatches, runBatch, chunks, upload_single_product,
      allOKEnv, BatchEnv.itemEnv, prodOK, respOK, validate_product_data,
      pyTruthyStr, pyTruthyList, pyTruthyPrice, PriceVal.truthy, PriceVal.floatOk]
  · rcases ha : upload_products_async allOKEnv {} [prodOK, prodOK] 7 with e2 | br
    · exfalso
      revert ha
      simp [upload_products_async, gatherTasks, asyncTask, upload_single_product,
        allOKEnv, BatchEnv.itemEnv, prodOK, respOK, validate_product_data,
        pyTruthyStr, pyTruthyList, pyTruthyPrice, PriceVal.truthy,
        PriceVal.floatOk]
    · have h := batch_details_ordered allOKEnv {} [prodOK, prodOK] r 7 br
        (by decide) hs ha
      simp only [Except.map]
      rw [h.2.1, h.2.2.2]
      exact ⟨rfl, rfl⟩

/-! ### Theorems about batch totality (claim C6) -/

/-- **C6 counterexample.** An item whose dict lacks the `title` key makes
`upload_products` raise `KeyError('title')` (the `product['title']` read at
line 330), so a batch upload is not exception-free for items of arbitrary
shape. -/
theorem upload_products_raises_key_error :
    upload_products allOKEnv {} [prodNoTitle] = .error (.keyError "title") := by
  simp [upload_products, runBatches, runBatch, chunks, prodNoTitle, allOKEnv]

/-- **C6 (amended).** For item lists whose every element carries a `title`
key, with an initialized API client, the sequential batch upload never raises
and never aborts early: it returns one detail record per input item and a
summary with `success + failed = total = len(items)`, plus `duration` and
`success_rate` keys when the input is non-empty — even when every item fails.
The empty list returns the zero summary, which omits `duration` and
`success_rate`; an item without `title` raises `KeyError` (see the
counterexample) and an uninitialized client can raise `NameError` (see C10),
so the hypotheses are necessary. -/
theorem upload_products_total (env : BatchEnv) (cfg : UploadCfg)
    (products : List Product)
    (hbs : 0 < cfg.batch_size)
    (hready : env.apiClientReady = true)
    (htitle : ∀ p ∈ products, p.title ≠ none) :
    ∃ r, upload_products env cfg products = .ok r ∧
      r.results.total = products.length ∧
      r.results.details.length = products.length ∧
      r.results.success + r.results.failed = products.length ∧
      (products = [] →
        r.results.duration = none ∧ r.results.success_rate = none) ∧
      (products ≠ [] →
        r.results.duration ≠ none ∧ r.results.success_rate ≠ none) := by
  by_cases hnil : products = []
  · subst hnil
    refine ⟨⟨⟨0, 0, 0, [], none, none⟩, []⟩, by simp [upload_products], ?_, ?_, ?_, ?_, ?_⟩
    · rfl
    · rfl
    · rfl
    · exact fun _ => ⟨rfl, rfl⟩
    · exact fun h => absurd rfl h
  · obtain ⟨acc, hacc⟩ := runBatches_ok_exists env cfg hready
      (chunks cfg.batch_size products) 0 ⟨[], 0, 0, 0, []⟩
      (fun b hb p hp => htitle p (by
        rw [← chunks_flatten cfg.batch_size hbs products]
        exact List.mem_flatten.mpr ⟨b, hb, hp⟩))
    rcases hrun : upload_products env cfg products with e | r
    · exfalso
      simp only [upload_products, if_neg hnil] at hrun
      rw [hacc] at hrun
      simp at hrun
    · refine ⟨r, rfl, ?_⟩
      simp only [upload_products, if_neg hnil] at hrun
      rw [hacc] at hrun
      simp only [Except.ok.injEq] at hrun
      subst hrun
      obtain ⟨m1, m2, m3, m4⟩ := runBatches_chunks_map env cfg hbs products 0
        ⟨[], 0, 0, 0, []⟩ acc (by simpa using hacc)
      refine ⟨rfl, by simpa using m1, by simpa using m3, ?_, ?_⟩
      · exact fun h => absurd h hnil
      · exact fun _ => ⟨by simp, by simp⟩

/-- Witness for the amended C6: one valid item gives a complete summary with
`total = 1` and `success + failed = 1`. -/
theorem upload_products_total_witness :
    (upload_products allOKEnv {} [prodOK]).map
      (fun r => (r.results.total, r.results.details.length,
        r.results.success + r.results.failed)) = .ok (1, 1, 1) := by
  obtain ⟨r, hr, htot, hlen, hsum, _, _⟩ :=
    upload_products_total allOKEnv {} [prodOK] (by decide) rfl
      (by intro p hp
          simp only [List.mem_singleton] at hp
          subst hp
          simp [prodOK])
  rw [hr]
  simp only [Except.map]
  simp [htot, hlen, hsum]

/-! ### Theorems about sequential pacing (claim C7) -/

/-- **C7 counterexample.** With `batch_size = 2` and three items, the pacing
sleep runs only after item 1 — not after item 2, which is the last of its
batch (`j < len(batch) - 1` at line 351) although it is not the last item of
the submitted list.  The claim's "after each item except the last one"
predicts pacing after items 1 and 2. -/
theorem upload_products_pacing_skips_batch_boundary :
    (upload_products allOKEnv cfgB2 [prodOK, prodOK, prodOK]).map SeqRun.pacing =
        .ok [1] ∧
      (upload_products allOKEnv cfgB2 [prodOK, prodOK, prodOK]).map SeqRun.pacing ≠
        .ok [1, 2] := by
  have h1 : (upload_products allOKEnv cfgB2 [prodOK, prodOK, prodOK]).map
      SeqRun.pacing = .ok [1] := by
    simp [upload_products, runBatches, runBatch, chunks, upload_single_product,
      allOKEnv, BatchEnv.itemEnv, cfgB2, prodOK, respOK, validate_product_data,
      pyTruthyStr, pyTruthyList, pyTruthyPrice, PriceVal.truthy,
      PriceVal.floatOk, Except.map]
  refine ⟨h1, ?_⟩
  rw [h1]
  simp

/-- **C7 (amended).** In sequential mode the pacing sleep runs after each
item except the last one *of each `batch_size`-slice* (and hence also not
after the final item): a successful `upload_products` paces exactly after the
1-based positions `q` with `q < len(items)` and `q` not a multiple of
`batch_size`.  In particular consecutive batches are not separated by a
pacing sleep. -/
theorem upload_products_pacing (env : BatchEnv) (cfg : UploadCfg)
    (products : List Product) (r : SeqRun)
    (hbs : 0 < cfg.batch_size)
    (hseq : upload_products env cfg products = .ok r) :
    ∀ q, q ∈ r.pacing ↔
      (1 ≤ q ∧ q < products.length ∧ q % cfg.batch_size ≠ 0) := by
  by_cases hnil : products = []
  · subst hnil
    have hz : upload_products env cfg [] = .ok ⟨⟨0, 0, 0, [], none, none⟩, []⟩ := by
      simp [upload_products]
    rw [hz] at hseq
    simp only [Except.ok.injEq] at hseq
    subst hseq
    intro q
    simp
  · simp only [upload_products, if_neg hnil] at hseq
    rcases hrb : runBatches env cfg (chunks cfg.batch_size products) 0
        ⟨[], 0, 0, 0, []⟩ with e | acc
    · rw [hrb] at hseq
      simp at hseq
    · rw [hrb] at hseq
      simp only [Except.ok.injEq] at hseq
      subst hseq
      obtain ⟨m1, m2, m3, m4⟩ := runBatches_chunks_map env cfg hbs products 0
        ⟨[], 0, 0, 0, []⟩ acc (by simpa using hrb)
      intro q
      have h := m4 q
      simp only [List.not_mem_nil, false_or, Nat.mul_zero, Nat.zero_add] at h
      simpa using h

/-- Witness for the amended C7: with `batch_size = 2` and three items, the
pacing characterization puts a sleep after item 1 and none after item 2. -/
theorem upload_products_pacing_witness :
    (upload_products allOKEnv cfgB2 [prodOK, prodOK, prodOK]).map
      (fun r => (decide (1 ∈ r.pacing), decide (2 ∈ r.pacing))) =
      .ok (true, false) := by
  rcases hs : upload_products allOKEnv cfgB2 [prodOK, prodOK, prodOK] with e | r
  · exfalso
    revert hs
    simp [upload_products, runBatches, runBatch, chunks, upload_single_product,
      allOKEnv, BatchEnv.itemEnv, cfgB2, prodOK, respOK, validate_product_data,
      pyTruthyStr, pyTruthyList, pyTruthyPrice, PriceVal.truthy, PriceVal.floatOk]
  · have h := upload_products_pacing allOKEnv cfgB2 [prodOK, prodOK, prodOK] r
      (by decide) hs
    have h1 : 1 ∈ r.pacing := (h 1).mpr ⟨le_refl 1, by simp, by decide⟩
    have h2 : 2 ∉ r.pacing := by
      intro hm
      have hc := (h 2).mp hm
      have : (2 : Nat) % cfgB2.batch_size = 0 := by decide
      exact hc.2.2 this
    simp [Except.map, h1, h2]

end ProductUpload
